import Mathlib

/-!
Verification of the project-management backend (Express/PostgreSQL routes)
against its natural-language specification.

The route handlers are shallowly embedded as pure Lean functions:
* monetary values (`parseFloat` in the source) are integers in cents,
* calendar dates are encoded as `year * 1000 + dayOfYear`, so that the
  order on `ℕ` agrees with chronological order and the year is recoverable
  (the source only compares dates and extracts their year),
* a handler that can reject returns `Except`, with one error constructor
  per distinct rejection response site in the source,
* database state is passed explicitly (lists of rows).
-/

deriving instance DecidableEq for Except

namespace PM

/-- Monetary values, in cents. The source manipulates `parseFloat`
results; scaling to integer cents preserves every comparison, addition
and subtraction the routes perform (the validator minimum `0.01` becomes
`1`). -/
abbrev Money := ℤ

/-- Calendar dates, encoded as `year * 1000 + dayOfYear`. -/
abbrev Date := ℕ

/-- The year of a date: `EXTRACT(YEAR FROM date)` in SQL,
`new Date(date).getFullYear()` in the route code. -/
def yearOf (d : Date) : ℕ := d / 1000

/-- Roles from `src/middleware/auth.js` (`staff`, `user`, `madmin`, `admin`). -/
inductive Role
  | staff
  | user
  | madmin
  | admin
deriving DecidableEq, Repr

/-- Role membership: `userRoles.includes(role)` (auth.js `hasRole`). -/
def hasRole (roles : List Role) (r : Role) : Bool := roles.contains r

/-- auth.js `canAccessProjects`. -/
def canAccessProjects (roles : List Role) : Bool :=
  hasRole roles .admin || hasRole roles .madmin || hasRole roles .user

/-- auth.js `canAccessBilling`. -/
def canAccessBilling (roles : List Role) : Bool :=
  hasRole roles .admin || hasRole roles .madmin

/-- A user row, with the fields the invoice routes consult. -/
structure UserRec where
  id : ℕ
  approved : Bool
deriving DecidableEq, Repr

/-- Invoice statuses (`pending`, `paid`, `overdue`, `cancelled`). -/
inductive InvoiceStatus
  | pending
  | paid
  | overdue
  | cancelled
deriving DecidableEq, Repr

/-- An invoice row (`invoices` table columns used by the routes). -/
structure Invoice where
  number : String
  client_id : ℕ
  project_id : Option ℕ
  amount : Money
  description : Option String
  date : Date
  due_date : Date
  status : InvoiceStatus
  paid_amount : Money
deriving DecidableEq, Repr

/-- One distinct rejection response site per constructor, for the invoice
routes (`src/routes/invoices.js`). -/
inductive InvoiceError
  | validationFailed
  | notFound
  | clientNotFound
  | clientNotApproved
  | clientInvalid
  | projectMissing
  | dueBeforeDate
  | noValidFields
  | cancelledInvoice
  | exceedsBalance (remaining : Money)
deriving DecidableEq, Repr

/-- PUT `/api/invoices/:id/payment` (invoices.js lines 462-554).
The express-validator gate requires the body `amount` to be at least
`0.01`; the handler then rejects cancelled invoices, and either marks the
invoice fully paid or adds a partial payment, rejecting a partial payment
whose new total would exceed the invoice amount. -/
def applyPayment (inv : Invoice) (amount : Money) (markAsPaid : Bool) :
    Except InvoiceError Invoice :=
  if amount < 1 then .error .validationFailed
  else if inv.status = .cancelled then .error .cancelledInvoice
  else if markAsPaid then
    .ok { inv with paid_amount := inv.amount, status := .paid }
  else
    let newPaidAmount := inv.paid_amount + amount
    if inv.amount < newPaidAmount then
      .error (.exceedsBalance (inv.amount - inv.paid_amount))
    else
      .ok { inv with
              paid_amount := newPaidAmount,
              status := if inv.amount ≤ newPaidAmount then .paid else .pending }

/-- A payment request: body `amount` and the optional `markAsPaid` flag. -/
structure PaymentReq where
  amount : Money
  markAsPaid : Bool
deriving DecidableEq, Repr

/-- The stored invoice after one payment request: on rejection the handler
returns before the UPDATE, so the row is unchanged. -/
def payStep (inv : Invoice) (r : PaymentReq) : Invoice :=
  match applyPayment inv r.amount r.markAsPaid with
  | .ok inv' => inv'
  | .error _ => inv

/-- The stored invoice after a sequence of payment requests. -/
def payRun (inv : Invoice) (rs : List PaymentReq) : Invoice :=
  rs.foldl payStep inv

/-- Body of PUT `/api/invoices/:id`: every field is optional. -/
structure InvoiceUpdate where
  client_id : Option ℕ
  project_id : Option ℕ
  amount : Option Money
  description : Option String
  date : Option Date
  due_date : Option Date
  status : Option InvoiceStatus
deriving DecidableEq, Repr

/-- The client check of the invoice update: a submitted `client_id` must
resolve to an approved user. -/
def clientOk (users : List UserRec) (cid : ℕ) : Bool :=
  match users.find? (fun u => u.id = cid) with
  | some c => c.approved
  | none => false

/-- True when the update body has none of the updatable keys, so the
handler answers `No valid fields to update`. -/
def InvoiceUpdate.isEmpty (u : InvoiceUpdate) : Bool :=
  u.client_id = none && u.project_id = none && u.amount = none &&
  u.description = none && u.date = none && u.due_date = none &&
  u.status = none

/-- The dynamic `UPDATE invoices SET ...`: each submitted field overwrites
the stored one; `number` and `paid_amount` are not updatable keys. -/
def applyInvoiceUpdate (inv : Invoice) (u : InvoiceUpdate) : Invoice :=
  { inv with
      client_id := u.client_id.getD inv.client_id,
      project_id := if u.project_id.isSome then u.project_id else inv.project_id,
      amount := u.amount.getD inv.amount,
      description := if u.description.isSome then u.description else inv.description,
      date := u.date.getD inv.date,
      due_date := u.due_date.getD inv.due_date,
      status := u.status.getD inv.status }

/-- PUT `/api/invoices/:id` (invoices.js lines 304-459): express-validator
bounds on submitted fields, then the client/project existence checks, then
the dynamic update. The handler performs no cross-field check relating
`status`, `paid_amount`, `amount` or the two dates. -/
def updateInvoice (users : List UserRec) (projectIds : List ℕ)
    (inv : Invoice) (u : InvoiceUpdate) : Except InvoiceError Invoice :=
  if (match u.amount with | some a => decide (a < 1) | none => false) then
    .error .validationFailed
  else if (match u.client_id with | some cid => !clientOk users cid | none => false) then
    .error .clientInvalid
  else if (match u.project_id with | some pid => !projectIds.contains pid | none => false) then
    .error .projectMissing
  else if u.isEmpty then .error .noValidFields
  else .ok (applyInvoiceUpdate inv u)

/-- Body of POST `/api/invoices`. -/
structure CreateInvoiceInput where
  client_id : ℕ
  project_id : Option ℕ
  amount : Money
  description : Option String
  date : Date
  due_date : Date
deriving DecidableEq, Repr

/-- The count query
`SELECT COUNT(*) FROM invoices WHERE EXTRACT(YEAR FROM date) = $1`. -/
def countInYear (invs : List Invoice) (year : ℕ) : ℕ :=
  (invs.filter (fun i => yearOf i.date = year)).length

/-- Zero padding: `String(n).padStart(4, '0')`. -/
def padStart4 (s : String) : String :=
  if s.length < 4 then String.mk (List.replicate (4 - s.length) '0') ++ s
  else s

/-- The generated number: year concatenated with the zero-padded
per-year sequence (invoices.js lines 269-277). -/
def invoiceNumber (invs : List Invoice) (year : ℕ) : String :=
  toString year ++ padStart4 (toString (countInYear invs year + 1))

/-- POST `/api/invoices` (invoices.js lines 193-302): express-validator
amount bound, approved-client and project existence checks, the date-order
check, then the insert with a generated number, status `pending`, and
`paid_amount` zero. -/
def createInvoice (users : List UserRec) (projectIds : List ℕ)
    (invs : List Invoice) (inp : CreateInvoiceInput) :
    Except InvoiceError Invoice :=
  if inp.amount < 1 then .error .validationFailed
  else
    match users.find? (fun u => u.id = inp.client_id) with
    | none => .error .clientNotFound
    | some c =>
      if !c.approved then .error .clientNotApproved
      else if (match inp.project_id with
               | some pid => !projectIds.contains pid
               | none => false) then .error .projectMissing
      else if inp.due_date < inp.date then .error .dueBeforeDate
      else
        .ok { number := invoiceNumber invs (yearOf inp.date),
              client_id := inp.client_id,
              project_id := inp.project_id,
              amount := inp.amount,
              description := inp.description,
              date := inp.date,
              due_date := inp.due_date,
              status := .pending,
              paid_amount := 0 }

/-- The lazy overdue transition applied by the listing UPDATE:
`SET status = 'overdue' WHERE status = 'pending' AND due_date < CURRENT_DATE`. -/
def flagOverdue (today : Date) (inv : Invoice) : Invoice :=
  if inv.status = .pending ∧ inv.due_date < today then
    { inv with status := .overdue }
  else inv

/-- GET `/api/invoices` (invoices.js lines 28-142), filters and pagination
omitted (transport-layer concerns): the SELECT runs first, then the
overdue UPDATE, and the response is built from the pre-update rows.
First component: the rows returned to the caller; second: the stored
table after the request. -/
def listInvoices (invs : List Invoice) (today : Date) :
    List Invoice × List Invoice :=
  (invs, invs.map (flagOverdue today))

/-- Project statuses (`pending`, `ongoing`, `completed`). -/
inductive ProjectStatus
  | pending
  | ongoing
  | completed
deriving DecidableEq, Repr

/-- A project row (`projects` table columns used by the routes). -/
structure Project where
  name : String
  description : Option String
  start_date : Date
  end_date : Option Date
  status : ProjectStatus
  created_by : ℕ
deriving DecidableEq, Repr

/-- One distinct rejection response site per constructor, for the project
routes (`src/unnamed/part_001`). -/
inductive ProjectError
  | validationFailed
  | accessDenied
  | notFound
  | ownershipDenied
  | endBeforeStart
  | endDateRequiresCompleted
  | noValidFields
  | alreadyCompleted
deriving DecidableEq, Repr

/-- The error message of each rejection site (part_001). -/
def ProjectError.message : ProjectError → String
  | .validationFailed => "Validation failed"
  | .accessDenied => "Access denied. Project access requires user, madmin, or admin role."
  | .notFound => "Project not found"
  | .ownershipDenied => "Access denied. You can only edit your own projects."
  | .endBeforeStart => "End date cannot be before start date"
  | .endDateRequiresCompleted => "End date can only be set when project status is completed"
  | .noValidFields => "No valid fields to update"
  | .alreadyCompleted => "Project is already completed"

/-- Body of POST `/api/projects`: `status` defaults to `pending`. -/
structure CreateProjectInput where
  name : String
  description : Option String
  start_date : Date
  end_date : Option Date
  status : Option ProjectStatus
deriving DecidableEq, Repr

/-- POST `/api/projects` (part_001 lines 196-281): role gate, the
end-before-start check, and the regular-user rule that an end date is only
allowed with a declared `completed` status, then the insert. -/
def createProject (roles : List Role) (uid : ℕ) (inp : CreateProjectInput) :
    Except ProjectError Project :=
  if !canAccessProjects roles then .error .accessDenied
  else
    let status := inp.status.getD .pending
    if (match inp.end_date with
        | some e => decide (e < inp.start_date)
        | none => false) then .error .endBeforeStart
    else if !hasRole roles .admin && !hasRole roles .madmin &&
            inp.end_date.isSome && status ≠ .completed then
      .error .endDateRequiresCompleted
    else
      .ok { name := inp.name,
            description := inp.description,
            start_date := inp.start_date,
            end_date := inp.end_date,
            status := status,
            created_by := uid }

/-- Body of PUT `/api/projects/:id`: every field is optional. -/
structure ProjectUpdate where
  name : Option String
  description : Option String
  start_date : Option Date
  end_date : Option Date
  status : Option ProjectStatus
deriving DecidableEq, Repr

/-- True when the update body has none of the updatable keys. -/
def ProjectUpdate.isEmpty (u : ProjectUpdate) : Bool :=
  u.name = none && u.description = none && u.start_date = none &&
  u.end_date = none && u.status = none

/-- The dynamic `UPDATE projects SET ...`. -/
def applyProjectUpdate (p : Project) (u : ProjectUpdate) : Project :=
  { p with
      name := u.name.getD p.name,
      description := if u.description.isSome then u.description else p.description,
      start_date := u.start_date.getD p.start_date,
      end_date := if u.end_date.isSome then u.end_date else p.end_date,
      status := u.status.getD p.status }

/-- PUT `/api/projects/:id` (part_001 lines 284-422): role gate, ownership
check, the regular-user rule that a submitted end date requires a
submitted `completed` status, then the dynamic update. The handler never
compares the end date with the start date. -/
def updateProject (roles : List Role) (uid : ℕ) (p : Project)
    (u : ProjectUpdate) : Except ProjectError Project :=
  if !canAccessProjects roles then .error .accessDenied
  else if !(hasRole roles .admin || hasRole roles .madmin ||
            decide (p.created_by = uid)) then .error .ownershipDenied
  else if !hasRole roles .admin && !hasRole roles .madmin &&
          u.end_date.isSome && u.status ≠ some .completed then
    .error .endDateRequiresCompleted
  else if u.isEmpty then .error .noValidFields
  else .ok (applyProjectUpdate p u)

/-- PUT `/api/projects/:id/complete` (part_001 lines 425-510): role gate,
ownership check, the already-completed rejection, then the update setting
status `completed` and `end_date = CURRENT_DATE`. -/
def completeProject (roles : List Role) (uid : ℕ) (today : Date)
    (p : Project) : Except ProjectError Project :=
  if !canAccessProjects roles then .error .accessDenied
  else if !(hasRole roles .admin || hasRole roles .madmin ||
            decide (p.created_by = uid)) then .error .ownershipDenied
  else if p.status = .completed then .error .alreadyCompleted
  else .ok { p with status := .completed, end_date := some today }

/-- A time-entry row for one user (`time_entries` table). -/
structure TimeEntry where
  clock_in : ℕ
  clock_out : Option ℕ
  date : Date
deriving DecidableEq, Repr

/-- One user's time entries, newest first (`ORDER BY created_at DESC`). -/
abbrev TEState := List TimeEntry

/-- The rejection sites of the clock-in / clock-out routes. -/
inductive TimeEntryError
  | alreadyClockedIn
  | notClockedIn
deriving DecidableEq, Repr

/-- True when
`SELECT id FROM time_entries WHERE user_id = $1 AND clock_out IS NULL`
returned at least one row. -/
def hasOpenEntry (s : TEState) : Bool :=
  s.any (fun e => e.clock_out = none)

/-- Number of open (null clock-out) entries of the user. -/
def openCount (s : TEState) : ℕ :=
  (s.filter (fun e => e.clock_out = none)).length

/-- POST `/api/time-entries/clock-in` (timeEntries.js lines 310-348):
rejected when an open entry exists, else a fresh open entry is inserted. -/
def clockIn (s : TEState) (now : ℕ) (today : Date) :
    Except TimeEntryError TEState :=
  if hasOpenEntry s then .error .alreadyClockedIn
  else .ok ({ clock_in := now, clock_out := none, date := today } :: s)

/-- Close the most recent open entry (the list is newest first, matching
`ORDER BY created_at DESC LIMIT 1`). -/
def closeFirstOpen (s : TEState) (now : ℕ) : TEState :=
  match s with
  | [] => []
  | e :: rest =>
    if e.clock_out = none then { e with clock_out := some now } :: rest
    else e :: closeFirstOpen rest now

/-- PUT `/api/time-entries/clock-out` (timeEntries.js lines 351-403):
rejected when no open entry exists, else the most recent open entry gets
its clock-out set. -/
def clockOut (s : TEState) (now : ℕ) : Except TimeEntryError TEState :=
  if hasOpenEntry s then .ok (closeFirstOpen s now)
  else .error .notClockedIn

/-- A clock-in or clock-out request. -/
inductive TEOp
  | clockIn (now : ℕ) (today : Date)
  | clockOut (now : ℕ)
deriving DecidableEq, Repr

/-- The stored entries after one request (rejections leave them as is). -/
def teStep (s : TEState) : TEOp → TEState
  | .clockIn now today =>
    match clockIn s now today with
    | .ok s' => s'
    | .error _ => s
  | .clockOut now =>
    match clockOut s now with
    | .ok s' => s'
    | .error _ => s

/-- The stored entries after a sequence of requests. -/
def teRun (s : TEState) (ops : List TEOp) : TEState :=
  ops.foldl teStep s

/-- Rounding to two decimals (`ROUND(x, 2)` / `toFixed(2)` on the
nonnegative values these routes produce). -/
def round2 (q : ℚ) : ℚ := (round (q * 100) : ℤ) / 100

/-- The JSON of GET `/api/projects/stats/overview`. -/
structure ProjectStats where
  total : ℕ
  pending : ℕ
  ongoing : ℕ
  completed : ℕ
  completionRate : ℚ
deriving DecidableEq, Repr

/-- GET `/api/projects/stats/overview` (part_001 lines 557-610): status
counts and `ROUND(completed * 100.0 / NULLIF(total, 0), 2)`; the `NULLIF`
makes the rate NULL on an empty table, which `parseFloat(...) || 0` then
turns into `0`. -/
def projectStatsOverview (ps : List Project) : ProjectStats :=
  let total := ps.length
  let completed := (ps.filter (fun p => p.status = .completed)).length
  { total := total,
    pending := (ps.filter (fun p => p.status = .pending)).length,
    ongoing := (ps.filter (fun p => p.status = .ongoing)).length,
    completed := completed,
    completionRate :=
      if total = 0 then 0 else round2 ((completed * 100 : ℚ) / total) }

/-- The JSON of GET `/api/time-entries/stats`. -/
structure TimeStats where
  totalEntries : ℕ
  completedEntries : ℕ
  activeEntries : ℕ
  daysWorked : ℕ
  totalHours : ℚ
  averageHoursPerDay : ℚ
deriving DecidableEq, Repr

/-- Hours of one entry: `EXTRACT(EPOCH FROM (clock_out - clock_in)) / 3600`
for completed entries, `0` for open ones (clock times are in seconds). -/
def entryHours (e : TimeEntry) : ℚ :=
  match e.clock_out with
  | some t => ((t - e.clock_in : ℕ) : ℚ) / 3600
  | none => 0

/-- GET `/api/time-entries/stats` (timeEntries.js lines 240-307) over the
user's period-filtered entries: counts, distinct work days, the
`COALESCE(SUM(...), 0)` hour total, and the average per day guarded by
`days_worked > 0` (`0` otherwise). -/
def timeStats (entries : List TimeEntry) : TimeStats :=
  let daysWorked := (entries.map (fun e => e.date)).dedup.length
  let totalHours := (entries.map entryHours).sum
  { totalEntries := entries.length,
    completedEntries := (entries.filter (fun e => e.clock_out ≠ none)).length,
    activeEntries := (entries.filter (fun e => e.clock_out = none)).length,
    daysWorked := daysWorked,
    totalHours := totalHours,
    averageHoursPerDay :=
      if 0 < daysWorked then round2 (totalHours / daysWorked) else 0 }

/-- Sample invoice: amount 100.00, 40.00 already paid. -/
def invA : Invoice := ⟨"20240001", 1, none, 10000, none, 2024010, 2024020, .pending, 4000⟩

/-- The row `invA` after full payment. -/
def invA1 : Invoice := ⟨"20240001", 1, none, 10000, none, 2024010, 2024020, .paid, 10000⟩

/-- Sample pending invoice whose due date (day 5 of 2024) has passed. -/
def invC : Invoice := ⟨"20240002", 1, none, 10000, none, 2024001, 2024005, .pending, 0⟩

/-- The row `invC` after the lazy overdue transition. -/
def invCflagged : Invoice := ⟨"20240002", 1, none, 10000, none, 2024001, 2024005, .overdue, 0⟩

/-- Sample cancelled invoice with a prior partial payment. -/
def invD : Invoice := ⟨"20240003", 1, none, 10000, none, 2024010, 2024020, .cancelled, 4000⟩

/-- Sample invoice dated in 2023. -/
def invE : Invoice := ⟨"20230001", 7, none, 50000, none, 2023100, 2023120, .paid, 50000⟩

/-- Sample invoice-creation body dated in 2024. -/
def inpF : CreateInvoiceInput := ⟨7, none, 10000, none, 2024010, 2024020⟩

/-- The row inserted for `inpF` against a table holding only `invE`. -/
def invF : Invoice := ⟨"20240001", 7, none, 10000, none, 2024010, 2024020, .pending, 0⟩

/-- Sample overdue invoice with nothing paid yet. -/
def invG : Invoice := ⟨"20240004", 1, none, 10000, none, 2024001, 2024005, .overdue, 0⟩

/-- Sample already-completed project owned by user 1. -/
def projDone : Project := ⟨"Done", none, 2024010, some 2024050, .completed, 1⟩

/-- A payment request cannot increase `paid_amount` beyond `amount`, and
never changes `amount`. -/
theorem payStep_bound (inv : Invoice) (r : PaymentReq)
    (h : inv.paid_amount ≤ inv.amount) :
    (payStep inv r).paid_amount ≤ (payStep inv r).amount := by
  unfold payStep applyPayment
  split_ifs with h1 h2 h3
  · exact h
  · exact h
  · simp
  · by_cases h4 : inv.amount < inv.paid_amount + r.amount
    · simp [h4]
      exact h
    · simp [h4]
      exact not_lt.mp h4

/-- A partial payment whose new total would exceed the invoice amount is
always answered with an error. -/
theorem applyPayment_partial_exceeds (inv : Invoice) (p : Money)
    (hx : inv.amount < inv.paid_amount + p) :
    ∃ e, applyPayment inv p false = .error e := by
  unfold applyPayment
  split_ifs with h1 h2 h3
  · exact ⟨_, rfl⟩
  · exact ⟨_, rfl⟩
  · simp at h3
  · simp [hx]

/-- A rejected payment request leaves the stored row unchanged. -/
theorem payStep_of_error (inv : Invoice) (r : PaymentReq) (e : InvoiceError)
    (h : applyPayment inv r.amount r.markAsPaid = .error e) :
    payStep inv r = inv := by
  unfold payStep
  rw [h]

/-- C1: through the payment operation, `paid_amount` never exceeds
`amount` after any sequence of payment applications (partial or
mark-as-paid), and a partial payment whose new total would exceed
`amount` is rejected with the stored state unchanged. -/
theorem payment_preserves_paid_le_amount (inv : Invoice)
    (rs : List PaymentReq) (h : inv.paid_amount ≤ inv.amount) :
    (payRun inv rs).paid_amount ≤ (payRun inv rs).amount ∧
    ∀ p : Money, inv.amount < inv.paid_amount + p →
      (∃ e, applyPayment inv p false = .error e) ∧
      payStep inv ⟨p, false⟩ = inv := by
  constructor
  · induction rs generalizing inv with
    | nil => exact h
    | cons r rest ih =>
      have hstep := payStep_bound inv r h
      simpa [payRun, List.foldl_cons] using ih (payStep inv r) hstep
  · intro p hp
    obtain ⟨e, he⟩ := applyPayment_partial_exceeds inv p hp
    exact ⟨⟨e, he⟩, payStep_of_error inv ⟨p, false⟩ e he⟩

/-- C1 witness: the bound holds after a concrete sequence with a
rejected overpayment in the middle. -/
theorem payment_preserves_paid_le_amount_witness :
    (payRun invA [⟨4000, false⟩, ⟨7000, false⟩, ⟨2000, false⟩]).paid_amount ≤
      (payRun invA [⟨4000, false⟩, ⟨7000, false⟩, ⟨2000, false⟩]).amount :=
  (payment_preserves_paid_le_amount invA
    [⟨4000, false⟩, ⟨7000, false⟩, ⟨2000, false⟩] (by decide)).1

/-- C2 counterexample: the update operation accepts a submitted state
whose end date (day 5 of 2024) precedes the stored start date (day 10 of
2024) and stores it, because PUT `/api/projects/:id` never compares the
two dates. -/
theorem update_end_before_start_accepted :
    updateProject [Role.admin] 1 ⟨"P", none, 2024010, none, .pending, 1⟩
        ⟨none, none, none, some 2024005, none⟩
      = .ok ⟨"P", none, 2024010, some 2024005, .pending, 1⟩ ∧
    (2024005 : Date) < 2024010 := by
  exact ⟨by decide, by decide⟩

/-- C2 amended: the create operation rejects a submitted end date that
precedes the start date (so no record is created); the update operation
performs no such comparison. -/
theorem create_rejects_end_before_start (roles : List Role) (uid : ℕ)
    (inp : CreateProjectInput) (e : Date)
    (hacc : canAccessProjects roles = true)
    (he : inp.end_date = some e) (hlt : e < inp.start_date) :
    createProject roles uid inp = .error .endBeforeStart := by
  unfold createProject
  simp [hacc, he, hlt]

/-- C2 witness: a concrete creation with end before start is rejected. -/
theorem create_rejects_end_before_start_witness :
    createProject [Role.user] 1 ⟨"P", none, 2024010, some 2024005, some .completed⟩
      = .error .endBeforeStart :=
  create_rejects_end_before_start [Role.user] 1
    ⟨"P", none, 2024010, some 2024005, some .completed⟩ 2024005
    (by decide) rfl (by decide)

/-- C3 counterexample: the general invoice update stores status `paid`
while `paid_amount` (0) is below `amount` (100.00), because
PUT `/api/invoices/:id` updates `status` independently of payments. -/
theorem update_sets_paid_without_payment :
    updateInvoice [] [] ⟨"20240001", 1, none, 10000, none, 2024010, 2024020, .pending, 0⟩
        ⟨none, none, none, none, none, none, some .paid⟩
      = .ok ⟨"20240001", 1, none, 10000, none, 2024010, 2024020, .paid, 0⟩ ∧
    (0 : Money) < 10000 := by
  exact ⟨by decide, by decide⟩

/-- C3 amended: through the payment operation alone the equivalence does
hold — an accepted payment leaves status `paid` exactly when the new
`paid_amount` has reached `amount`. -/
theorem payment_paid_iff_full (inv : Invoice) (p : Money) (m : Bool)
    (inv' : Invoice) (h : applyPayment inv p m = .ok inv') :
    inv'.status = .paid ↔ inv'.amount ≤ inv'.paid_amount := by
  unfold applyPayment at h
  split_ifs at h with h1 h2 h3
  · cases h
    simp
  · by_cases h4 : inv.amount < inv.paid_amount + p
    · simp [h4] at h
    · simp [h4] at h
      cases h
      by_cases h5 : inv.amount ≤ inv.paid_amount + p
      · simp [h5]
      · simp [h5]

/-- C3 amended witness: a concrete accepted payment completing the
invoice. -/
theorem payment_paid_iff_full_witness :
    invA1.status = .paid ↔ invA1.amount ≤ invA1.paid_amount :=
  payment_paid_iff_full invA 6000 false invA1 (by decide)

/-- C4 counterexample: listing on day 10 of 2024 returns the row of a
pending invoice due on day 5 still marked `pending` — the response is
built from the SELECT that ran before the overdue UPDATE. -/
theorem listing_returns_stale_overdue :
    (listInvoices [invC] 2024010).1 = [invC] ∧
    invC.status = .pending ∧ invC.due_date < 2024010 := by
  exact ⟨rfl, by decide, by decide⟩

/-- C4 amended: the listing flags every pending past-due invoice as
overdue in the stored table before responding, but the rows returned to
the caller are the ones read before that update. -/
theorem listing_flags_overdue_in_store (invs : List Invoice) (today : Date) :
    (listInvoices invs today).1 = invs ∧
    ∀ i ∈ (listInvoices invs today).2,
      ¬(i.status = .pending ∧ i.due_date < today) := by
  refine ⟨rfl, ?_⟩
  intro i hi
  simp only [listInvoices, List.mem_map] at hi
  obtain ⟨j, _, rfl⟩ := hi
  unfold flagOverdue
  split_ifs with hc
  · simp
  · exact hc

/-- C4 amended witness: the flagged table of a concrete listing holds no
pending past-due row. -/
theorem listing_flags_overdue_in_store_witness :
    ¬(invCflagged.status = .pending ∧ invCflagged.due_date < 2024010) :=
  (listing_flags_overdue_in_store [invC] 2024010).2 invCflagged (by decide)

/-- The open count of a cons. -/
theorem openCount_cons (e : TimeEntry) (s : TEState) :
    openCount (e :: s) =
      (if e.clock_out = none then 1 else 0) + openCount s := by
  simp only [openCount, List.filter_cons]
  by_cases h : e.clock_out = none
  · simp [h, Nat.add_comm]
  · simp [h]

/-- No open entry means an open count of zero. -/
theorem openCount_zero_of_not_open (s : TEState)
    (h : hasOpenEntry s = false) : openCount s = 0 := by
  induction s with
  | nil => rfl
  | cons e rest ih =>
    simp only [hasOpenEntry, List.any_cons, Bool.or_eq_false_iff] at h
    rw [openCount_cons, if_neg (by simpa using h.1),
      ih (by simpa [hasOpenEntry] using h.2)]

/-- Closing the most recent open entry cannot increase the open count. -/
theorem openCount_closeFirstOpen_le (s : TEState) (now : ℕ) :
    openCount (closeFirstOpen s now) ≤ openCount s := by
  induction s with
  | nil => simp [closeFirstOpen]
  | cons e rest ih =>
    unfold closeFirstOpen
    split_ifs with h
    · simp [openCount_cons, h]
    · simp only [openCount_cons]
      exact Nat.add_le_add_left ih _

/-- One clock-in or clock-out request preserves the at-most-one-open
invariant. -/
theorem teStep_open_le (s : TEState) (op : TEOp) (h : openCount s ≤ 1) :
    openCount (teStep s op) ≤ 1 := by
  cases op with
  | clockIn now today =>
    unfold teStep clockIn
    by_cases hopen : hasOpenEntry s
    · simp [hopen]
      exact h
    · simp only [Bool.not_eq_true] at hopen
      simp [hopen, openCount_cons, openCount_zero_of_not_open s hopen]
  | clockOut now =>
    unfold teStep clockOut
    by_cases hopen : hasOpenEntry s
    · simp only [hopen, if_true]
      exact le_trans (openCount_closeFirstOpen_le s now) h
    · simp only [Bool.not_eq_true] at hopen
      simp [hopen]
      exact h

/-- C5: starting from a state with at most one open entry, any sequence
of clock-in/clock-out requests keeps at most one open entry; clock-in is
rejected exactly when an open entry exists, and clock-out is rejected
exactly when none exists. -/
theorem clocking_single_open (s : TEState) (ops : List TEOp)
    (h : openCount s ≤ 1) :
    openCount (teRun s ops) ≤ 1 ∧
    (∀ now today, clockIn s now today = .error .alreadyClockedIn ↔
      hasOpenEntry s = true) ∧
    (∀ now, clockOut s now = .error .notClockedIn ↔
      hasOpenEntry s = false) := by
  refine ⟨?_, ?_, ?_⟩
  · induction ops generalizing s with
    | nil => exact h
    | cons op rest ih =>
      simpa [teRun, List.foldl_cons] using
        ih (teStep s op) (teStep_open_le s op h)
  · intro now today
    unfold clockIn
    by_cases hopen : hasOpenEntry s
    · simp [hopen]
    · simp [hopen]
  · intro now
    unfold clockOut
    by_cases hopen : hasOpenEntry s
    · simp [hopen]
    · simp [hopen]

/-- C5 witness: clock-in, clock-out, clock-in again from an empty history
keeps at most one open entry. -/
theorem clocking_single_open_witness :
    openCount (teRun [] [.clockIn 5 1, .clockOut 9, .clockIn 10 1]) ≤ 1 :=
  (clocking_single_open [] [.clockIn 5 1, .clockOut 9, .clockIn 10 1]
    (by decide)).1

/-- C6: completing an already-completed project is rejected with the
specific already-completed business-state response, a distinct error kind
from the generic field-validation rejection, carrying its own message. -/
theorem complete_already_completed_conflict (roles : List Role) (uid : ℕ)
    (today : Date) (p : Project)
    (hacc : canAccessProjects roles = true)
    (hown : (hasRole roles .admin || hasRole roles .madmin ||
      decide (p.created_by = uid)) = true)
    (hst : p.status = .completed) :
    completeProject roles uid today p = .error .alreadyCompleted ∧
    ProjectError.alreadyCompleted ≠ ProjectError.validationFailed ∧
    ProjectError.alreadyCompleted.message ≠
      ProjectError.validationFailed.message := by
  refine ⟨?_, by decide, by decide⟩
  unfold completeProject
  simp [hacc, hown, hst]

/-- C6 witness: the owner completing an already-completed project gets
the already-completed rejection. -/
theorem complete_already_completed_conflict_witness :
    completeProject [Role.user] 1 2024060 projDone
      = .error .alreadyCompleted ∧
    ProjectError.alreadyCompleted ≠ ProjectError.validationFailed ∧
    ProjectError.alreadyCompleted.message ≠
      ProjectError.validationFailed.message :=
  complete_already_completed_conflict [Role.user] 1 2024060 projDone
    (by decide) (by decide) (by decide)

/-- C7 counterexample: on a cancelled invoice with a prior partial
payment, mark-as-paid is rejected and the stored row keeps `paid_amount`
(40.00) below `amount` (100.00). -/
theorem mark_as_paid_cancelled_rejected :
    applyPayment invD 100 true = .error .cancelledInvoice ∧
    payStep invD ⟨100, true⟩ = invD ∧
    invD.paid_amount ≠ invD.amount := by
  exact ⟨by decide, by decide, by decide⟩

/-- C7 amended: for every invoice that is not cancelled, mark-as-paid
sets `paid_amount` to `amount` and status to `paid`, regardless of prior
partial payments. -/
theorem mark_as_paid_sets_fully_paid (inv : Invoice) (p : Money)
    (hp : 1 ≤ p) (hc : inv.status ≠ .cancelled) :
    applyPayment inv p true =
      .ok { inv with paid_amount := inv.amount, status := .paid } := by
  unfold applyPayment
  rw [if_neg (not_lt.mpr hp), if_neg hc]
  rfl

/-- C7 amended witness: mark-as-paid on a 40.00-paid pending invoice of
100.00 stores 100.00 paid and status `paid`. -/
theorem mark_as_paid_sets_fully_paid_witness :
    applyPayment invA 500 true = .ok invA1 :=
  mark_as_paid_sets_fully_paid invA 500 (by decide) (by decide)

/-- The row inserted by a successful creation carries the generated
per-year number. -/
theorem createInvoice_ok_number (users : List UserRec) (projectIds : List ℕ)
    (invs : List Invoice) (inp : CreateInvoiceInput) (inv : Invoice)
    (h : createInvoice users projectIds invs inp = .ok inv) :
    inv.number = invoiceNumber invs (yearOf inp.date) := by
  unfold createInvoice at h
  by_cases h1 : inp.amount < 1
  · simp [h1] at h
  · rw [if_neg h1] at h
    cases hf : users.find? (fun u => u.id = inp.client_id) with
    | none =>
      rw [hf] at h
      simp at h
    | some c =>
      rw [hf] at h
      by_cases h2 : c.approved
      · simp only [h2, Bool.not_true, Bool.false_eq_true, if_false] at h
        split_ifs at h with h3 h4
        simp_all
        rw [← h]
      · simp only [Bool.not_eq_true] at h2
        simp [h2] at h

/-- C8: a successful creation numbers the new invoice as the invoice year
concatenated with the zero-padded count-plus-one of that year's existing
invoices; invoices of other years do not advance the sequence. -/
theorem invoice_number_scheme (users : List UserRec) (projectIds : List ℕ)
    (invs : List Invoice) (inp : CreateInvoiceInput) (inv : Invoice)
    (h : createInvoice users projectIds invs inp = .ok inv) :
    inv.number =
      toString (yearOf inp.date) ++
        padStart4 (toString (countInYear invs (yearOf inp.date) + 1)) ∧
    ∀ other : Invoice, yearOf other.date ≠ yearOf inp.date →
      countInYear (other :: invs) (yearOf inp.date) =
        countInYear invs (yearOf inp.date) := by
  refine ⟨createInvoice_ok_number users projectIds invs inp inv h, ?_⟩
  intro other hne
  simp [countInYear, List.filter_cons, hne]

/-- C8 witness: with one 2023 invoice on file, a 2024-dated creation is
numbered 20240001. -/
theorem invoice_number_scheme_witness :
    invF.number =
      toString (yearOf inpF.date) ++
        padStart4 (toString (countInYear [invE] (yearOf inpF.date) + 1)) :=
  (invoice_number_scheme [⟨7, true⟩] [] [invE] inpF invF (by decide)).1

/-- C9: both statistics operations over zero rows return all-zero
statistics; in particular the completion rate is 0 when the project count
is 0, with no division by zero. -/
theorem stats_empty_zero :
    projectStatsOverview [] = ⟨0, 0, 0, 0, 0⟩ ∧
    timeStats [] = ⟨0, 0, 0, 0, 0, 0⟩ := by
  exact ⟨by decide, by decide⟩

/-- C10: an accepted partial payment whose new total stays strictly below
`amount` sets status to `pending`, whatever the previous non-cancelled
status — `overdue` included. -/
theorem partial_payment_sets_pending (inv : Invoice) (p : Money)
    (hp : 1 ≤ p) (hc : inv.status ≠ .cancelled)
    (hlt : inv.paid_amount + p < inv.amount) :
    applyPayment inv p false =
      .ok { inv with paid_amount := inv.paid_amount + p,
                     status := .pending } := by
  unfold applyPayment
  rw [if_neg (not_lt.mpr hp), if_neg hc]
  simp only [Bool.false_eq_true, if_false]
  rw [if_neg (not_lt.mpr hlt.le), if_neg (not_le.mpr hlt)]

/-- C10 witness: a 40.00 partial payment on an overdue 100.00 invoice
stores status `pending`. -/
theorem partial_payment_sets_pending_witness :
    applyPayment invG 4000 false =
      .ok { invG with paid_amount := invG.paid_amount + 4000,
                      status := .pending } :=
  partial_payment_sets_pending invG 4000 (by decide) (by decide) (by decide)

end PM
